import Mathlib

/-!
Shallow embedding of the invoice extraction pipeline (src/main.py) and proofs
about its normalization and storage layers.

The embedding models:
  * JSON-decoded Python values (`JValue`), with Python floats as `PFloat`
    (finite values as exact rationals, plus infinities and nan);
  * Python `float(...)` string parsing (`pyFloat`);
  * Python `str(...)` of the decoded value (`pyRepr`), used for the
    confidence heuristic `min(0.99, len(str(json_data)) / 5000)`;
  * `clean_fields`, `normalize` (src/main.py lines 98-134);
  * pandas `DataFrame` construction and `to_sql(..., if_exists="append")`
    against the sqlite schema created by `init_db` (lines 136-179), with the
    `invoice_number TEXT PRIMARY KEY` uniqueness constraint;
  * the batch driver `process_folder` (lines 200-211), with the external
    collaborators (download, the two OCR engines, the two language model
    attempts) supplied as per-document oracle outcomes.

Fallible Python code is modelled with `Except PyErr` / explicit error
components; an `error` value marks an uncaught Python exception at that point.
-/

namespace InvoicePipe

/-- Kinds of runtime exceptions the modelled Python code can raise. -/
inductive PyErr where
  | typeError
  | valueError
  | keyError
  | operationalError
  | integrityError
  | otherError
deriving DecidableEq, Repr

/-- A Python float: a finite value (exact rational), an infinity, or nan.
Finite values are modelled exactly as rationals; the claims under proof do
not depend on binary rounding. -/
inductive PFloat where
  | fin (q : Rat)
  | inf (neg : Bool)
  | nan
deriving DecidableEq, Repr

/-- A JSON-decoded Python value (`json.loads` result): `None`, `bool`,
number, string, list, or dict (insertion-ordered key/value pairs). -/
inductive JValue where
  | null
  | bool (b : Bool)
  | num (p : PFloat)
  | str (s : String)
  | arr (xs : List JValue)
  | obj (kvs : List (String × JValue))
deriving Repr

/-- A record row: an insertion-ordered dict restricted to string keys. -/
abbrev Row := List (String × JValue)

/-- Python `d[k]` lookup on a dict (first matching key). -/
def objGet (d : Row) (k : String) : Option JValue :=
  match d with
  | [] => none
  | (k0, v) :: rest => if k0 == k then some v else objGet rest k

/-- Python `d.get(k, dflt)`. -/
def getD (d : Row) (k : String) (dflt : JValue) : JValue :=
  (objGet d k).getD dflt

/-- Python `d[k] = v`: replace the value in place if the key exists,
otherwise append the key at the end (insertion order). -/
def objSet (d : Row) (k : String) (v : JValue) : Row :=
  match d with
  | [] => [(k, v)]
  | (k0, v0) :: rest => if k0 == k then (k, v) :: rest else (k0, v0) :: objSet rest k v

/-- ASCII decimal digit test. -/
def isDigitC (c : Char) : Bool := 48 ≤ c.toNat && c.toNat ≤ 57

/-- Numeric value of an ASCII digit. -/
def digitVal (c : Char) : Nat := c.toNat - 48

/-- The underscore character. -/
def uscoreC : Char := Char.ofNat 95

/-- Whitespace characters stripped by Python `float()` / `str.strip()`. -/
def isWsC (c : Char) : Bool :=
  c == ' ' || c.toNat == 9 || c.toNat == 10 || c.toNat == 11 || c.toNat == 12 || c.toNat == 13

/-- Take the maximal leading run of digits and underscores. -/
def takeRun : List Char → List Char × List Char
  | [] => ([], [])
  | c :: cs =>
    if isDigitC c || c == uscoreC then
      let (r, rest) := takeRun cs
      (c :: r, rest)
    else ([], c :: cs)

/-- No two adjacent underscores in the run. -/
def noDoubleU : List Char → Bool
  | a :: b :: rest => !(a == uscoreC && b == uscoreC) && noDoubleU (b :: rest)
  | _ => true

/-- A digit/underscore run is valid Python numeric-literal text: it starts
and ends with a digit and has no doubled underscore (so every underscore
sits between two digits). The empty run is treated as valid here; callers
check emptiness separately. -/
def runValid (cs : List Char) : Bool :=
  match cs with
  | [] => true
  | c :: rest =>
    isDigitC c && (match (c :: rest).getLast? with
                   | some d => isDigitC d
                   | none => true) && noDoubleU (c :: rest)

/-- Digits of a run, underscores removed. -/
def digitsOf (cs : List Char) : List Char := cs.filter isDigitC

/-- Value of a digit list read in base 10. -/
def digitsToNat (cs : List Char) : Nat :=
  cs.foldl (fun a c => a * 10 + digitVal c) 0

/-- Parse the exponent suffix (`e`/`E`, optional sign, digit run); `[]`
parses as exponent 0; anything else fails. -/
def parseExpPart (cs : List Char) : Option Int :=
  match cs with
  | [] => some 0
  | e :: rest =>
    if e == 'e' || e == 'E' then
      let (neg, rest2) :=
        match rest with
        | '-' :: r => (true, r)
        | '+' :: r => (false, r)
        | r => (false, r)
      let (run, rest3) := takeRun rest2
      if rest3.isEmpty && !run.isEmpty && runValid run then
        let n : Int := (digitsToNat (digitsOf run) : Int)
        some (if neg then -n else n)
      else none
    else none

/-- Parse an unsigned decimal mantissa with optional fraction and exponent,
exactly the forms accepted by CPython `float()` after sign removal. -/
def parseMantissa (cs : List Char) : Option Rat :=
  let (ip, r1) := takeRun cs
  match r1 with
  | '.' :: r2 =>
    let (fp, r3) := takeRun r2
    if runValid ip && runValid fp && !(ip.isEmpty && fp.isEmpty) then
      match parseExpPart r3 with
      | some e =>
        let ipd := digitsOf ip
        let fpd := digitsOf fp
        let base : Rat := (digitsToNat ipd : Rat) + (digitsToNat fpd : Rat) / ((10 : Rat) ^ fpd.length)
        some (if 0 ≤ e then base * (10 : Rat) ^ e.toNat else base / (10 : Rat) ^ (-e).toNat)
      | none => none
    else none
  | _ =>
    if !ip.isEmpty && runValid ip then
      match parseExpPart r1 with
      | some e =>
        let base : Rat := (digitsToNat (digitsOf ip) : Rat)
        some (if 0 ≤ e then base * (10 : Rat) ^ e.toNat else base / (10 : Rat) ^ (-e).toNat)
      | none => none
    else none

/-- Strip leading and trailing whitespace from a character list. -/
def stripWsL (cs : List Char) : List Char :=
  ((cs.dropWhile isWsC).reverse.dropWhile isWsC).reverse

/-- Python `s.strip()`. -/
def pyStripStr (s : String) : String := ⟨stripWsL s.data⟩

/-- Model of CPython `float(s)` on a string: strip whitespace, optional
sign, then `inf`/`infinity`/`nan` (case-insensitive) or a decimal literal
with optional fraction, exponent, and digit-group underscores. `none`
models a raised `ValueError`. -/
def pyFloat (s : String) : Option PFloat :=
  let cs := stripWsL s.data
  match cs with
  | [] => none
  | _ =>
    let (neg, cs2) :=
      match cs with
      | '-' :: r => (true, r)
      | '+' :: r => (false, r)
      | r => (false, r)
    let low := cs2.map Char.toLower
    if low == "inf".data || low == "infinity".data then some (.inf neg)
    else if low == "nan".data then some .nan
    else (parseMantissa cs2).map (fun q => .fin (if neg then -q else q))

/-- Python `s.replace(",", "")`. -/
def removeCommas (s : String) : String := ⟨s.data.filter (fun c => !(c == ','))⟩

/-- A single-quote character as a string (used by Python `repr`). -/
def sq : String := ⟨[Char.ofNat 39]⟩

/-- Fractional digits of a rational in `[0, 1)`, most significant first,
with a recursion-depth budget (the values reaching this printer in the
pipeline are finite decimals, which terminate before the budget). -/
def fracDigitChars : Nat → Rat → List Char
  | 0, _ => []
  | fuel + 1, q =>
    if q = 0 then []
    else
      let q10 := q * 10
      let d := q10.floor
      Char.ofNat (48 + d.toNat) :: fracDigitChars fuel (q10 - (d : Rat))

/-- Python `repr`/`str` of a float: `nan`, `inf`, `-inf`, or a decimal with
at least one fractional digit (`0.0`, `1200.5`). -/
def reprFloat (p : PFloat) : String :=
  match p with
  | .nan => "nan"
  | .inf b => if b then "-inf" else "inf"
  | .fin q =>
    let sgn := if q < 0 then "-" else ""
    let aq := if q < 0 then -q else q
    let ip := aq.floor
    let ds := fracDigitChars 17 (aq - (ip : Rat))
    sgn ++ Nat.repr ip.toNat ++ "." ++ (if ds.isEmpty then "0" else ⟨ds⟩)

mutual
/-- Python `str()` of a decoded JSON value (`repr` for nested values):
`None`, `True`/`False`, float repr, quoted strings, `[...]` lists and
`{'k': v, ...}` dicts. String escaping is not modelled. -/
def pyRepr : JValue → String
  | .null => "None"
  | .bool b => if b then "True" else "False"
  | .num p => reprFloat p
  | .str s => sq ++ s ++ sq
  | .arr xs => "[" ++ pyReprList xs ++ "]"
  | .obj kvs => "\x7b" ++ pyReprObj kvs ++ "\x7d"
/-- Comma-separated `repr` of list elements. -/
def pyReprList : List JValue → String
  | [] => ""
  | [x] => pyRepr x
  | x :: y :: xs => pyRepr x ++ ", " ++ pyReprList (y :: xs)
/-- Comma-separated `repr` of dict entries. -/
def pyReprObj : List (String × JValue) → String
  | [] => ""
  | [(k, v)] => sq ++ k ++ sq ++ ": " ++ pyRepr v
  | (k, v) :: p :: r => sq ++ k ++ sq ++ ": " ++ pyRepr v ++ ", " ++ pyReprObj (p :: r)
end

/-- Python `min(a, b)` on two numbers: `b` when `b < a`, else `a`. -/
def pyMin (a b : Rat) : Rat := if b < a then b else a

/-- Model of `float(str(v).replace(",", ""))` for a decoded value `v`
(src/main.py line 106):
  * a float round-trips through its repr;
  * a string has its commas removed and is handed to `float()`;
  * `None`, booleans, lists and dicts stringify to text (`None`, `True`,
    `[...]`, `{...}`) that `float()` rejects.
`none` models a raised exception. -/
def floatOfStr : JValue → Option PFloat
  | .num p => some p
  | .str s => pyFloat (removeCommas s)
  | _ => none

/-- The numeric coercion applied to `subtotal`/`tax`/`total` in
`clean_fields` (src/main.py lines 104-108): the `try` body
`float(str(data[key]).replace(",", ""))` with an absent key raising
`KeyError`; any exception is swallowed and yields `0.0`. -/
def coerceNum (o : Option JValue) : PFloat :=
  match o with
  | none => .fin 0
  | some v => (floatOfStr v).getD (.fin 0)

/-- The two date keys rewritten by `clean_fields`. -/
def dateKeys : List String := ["invoice_date", "due_date"]

/-- The three numeric keys rewritten by `clean_fields`. -/
def numKeys : List String := ["subtotal", "tax", "total"]

/-- One iteration of the date loop of `clean_fields` (src/main.py lines
99-103): `data[key] = str(parser.parse(data[key]).date())` with any raise
(missing key, unparseable value) swallowed into `data[key] = None`.
`dateParse v` models the external `dateutil` call: `some s` a successful
parse, `none` a raise. -/
def dateWrite (dateParse : JValue → Option String) (acc : Row) (k : String) : Row :=
  objSet acc k
    (match objGet acc k with
     | some v => match dateParse v with
                 | some s => .str s
                 | none => .null
     | none => .null)

/-- One iteration of the numeric loop of `clean_fields` (src/main.py lines
104-108): `data[key] = float(str(data[key]).replace(",", ""))` with any
raise swallowed into `data[key] = 0.0`. -/
def numWrite (acc : Row) (k : String) : Row :=
  objSet acc k (.num (coerceNum (objGet acc k)))

/-- `clean_fields` (src/main.py lines 98-109) on a dict: the date loop
over `["invoice_date", "due_date"]` followed by the numeric loop over
`["subtotal", "tax", "total"]`. -/
def clean_fields (dateParse : JValue → Option String) (d : Row) : Row :=
  numKeys.foldl numWrite (dateKeys.foldl (dateWrite dateParse) d)

/-- The confidence heuristic `min(0.99, len(str(json_data)) / 5000)`
(src/main.py line 127), computed on the cleaned dict. -/
def confidenceOf (d : Row) : Rat :=
  pyMin (99 / 100) (((pyRepr (.obj d)).length : Rat) / 5000)

/-- The header record built by `normalize` (src/main.py lines 115-128)
from the cleaned dict: every field fetched with `.get` and a default,
plus the confidence heuristic. -/
def mkHeader (d : Row) : Row :=
  [("invoice_number", getD d "invoice_number" (.str "")),
   ("invoice_date", getD d "invoice_date" (.str "")),
   ("due_date", getD d "due_date" (.str "")),
   ("vendor_name", getD d "vendor_name" (.str "")),
   ("vendor_address", getD d "vendor_address" (.str "")),
   ("customer_name", getD d "customer_name" (.str "")),
   ("customer_address", getD d "customer_address" (.str "")),
   ("subtotal", getD d "subtotal" (.num (.fin 0))),
   ("tax", getD d "tax" (.num (.fin 0))),
   ("total", getD d "total" (.num (.fin 0))),
   ("currency", getD d "currency" (.str "")),
   ("confidence", .num (.fin (confidenceOf d)))]

/-- The loop `for item in items: item["invoice_number"] = ...` over the
elements of a `line_items` list (src/main.py lines 131-132). Each element
must be a dict; assigning a string key into any other element type raises
`TypeError`. -/
def setItemNums (inum : JValue) : List JValue → Except PyErr (List Row)
  | [] => .ok []
  | .obj kvs :: rest =>
    match setItemNums inum rest with
    | .ok ys => .ok (objSet kvs "invoice_number" inum :: ys)
    | .error e => .error e
  | _ :: _ => .error .typeError

/-- `items = json_data.get("line_items", [])` followed by the stamping
loop and the truthiness test `if items` (src/main.py lines 130-133):
  * absent key or empty list/string/dict: no rows;
  * a list: every element must be a dict (else `TypeError`);
  * a nonempty string or dict: iteration yields strings, and string-key
    assignment into them raises `TypeError`;
  * `None`, a bool, or a number: not iterable, `TypeError`. -/
def mkItems (d : Row) (inum : JValue) : Except PyErr (List Row) :=
  match objGet d "line_items" with
  | none => .ok []
  | some (.arr xs) => setItemNums inum xs
  | some (.str s) => if s.isEmpty then .ok [] else .error .typeError
  | some (.obj kvs) => if kvs.isEmpty then .ok [] else .error .typeError
  | some _ => .error .typeError

/-- Body of `normalize` after the list unwrap, on a dict input
(src/main.py lines 114-134): clean the fields, build the header, stamp
the resolved invoice number onto the line items. -/
def normalizeDict (dateParse : JValue → Option String) (kvs : Row) :
    Except PyErr (Row × List Row) :=
  match mkItems (clean_fields dateParse kvs)
      (getD (clean_fields dateParse kvs) "invoice_number" (.str "")) with
  | .ok its => .ok (mkHeader (clean_fields dateParse kvs), its)
  | .error e => .error e

/-- The list unwrap at the top of `normalize` (src/main.py lines 112-113):
`json_data = json_data[0] if json_data else {}` for list inputs. -/
def unwrapList : JValue → JValue
  | .arr [] => .obj []
  | .arr (x :: _) => x
  | j => j

/-- `normalize` (src/main.py lines 111-134), producing the header record
and the line-item records. A non-dict value after the list unwrap raises
`TypeError` inside `clean_fields` (subscripting a non-dict). -/
def normalize (dateParse : JValue → Option String) (j : JValue) :
    Except PyErr (Row × List Row) :=
  match unwrapList j with
  | .obj kvs => normalizeDict dateParse kvs
  | _ => .error .typeError

/-- A pandas `DataFrame`: an ordered column list and rows (each row an
ordered key/value record; a key absent from a row reads as `NaN`/null). -/
structure DFrame where
  cols : List String
  rows : List Row
deriving Repr

/-- `pd.DataFrame([invoice])`: one row, columns in record order. -/
def dfOfHeader (h : Row) : DFrame := ⟨h.map Prod.fst, [h]⟩

/-- Column set of `pd.DataFrame(items)`: union of the row key sets in
order of first appearance. -/
def unionKeys (rows : List Row) : List String :=
  rows.foldl (fun acc r => (r.map Prod.fst).foldl
    (fun a k => if a.contains k then a else a ++ [k]) acc) []

/-- `pd.DataFrame(items) if items else pd.DataFrame(columns=["invoice_number"])`
(src/main.py line 133). -/
def dfOfItems (its : List Row) : DFrame :=
  if its.isEmpty then ⟨["invoice_number"], []⟩ else ⟨unionKeys its, its⟩

/-- `normalize` as called by the driver: the two DataFrames it returns. -/
def normalize_df (dateParse : JValue → Option String) (j : JValue) :
    Except PyErr (DFrame × DFrame) :=
  match normalize dateParse j with
  | .ok (h, its) => .ok (dfOfHeader h, dfOfItems its)
  | .error e => .error e

/-- A sqlite table: column list, optional primary-key column, rows. -/
structure Table where
  cols : List String
  pk : Option String
  rows : List Row
deriving Repr

/-- The database: the two relations of src/main.py. -/
structure DB where
  invoices : Table
  line_items : Table
deriving Repr

/-- Columns of the `invoices` relation created by `init_db`
(src/main.py lines 139-154). -/
def invoiceCols : List String :=
  ["invoice_number", "invoice_date", "due_date", "vendor_name",
   "vendor_address", "customer_name", "customer_address",
   "subtotal", "tax", "total", "currency", "confidence"]

/-- Columns of the `line_items` relation created by `init_db`
(src/main.py lines 155-163). -/
def itemCols : List String :=
  ["invoice_number", "description", "quantity", "unit_price", "amount"]

/-- `init_db` (src/main.py lines 136-165): `CREATE TABLE IF NOT EXISTS`
for both relations — a fresh store gets the fixed schemas, with
`invoice_number TEXT PRIMARY KEY` on `invoices`; an existing store is
left untouched. -/
def init_db (db : Option DB) : DB :=
  match db with
  | some d => d
  | none =>
    ⟨⟨invoiceCols, some "invoice_number", []⟩, ⟨itemCols, none, []⟩⟩

/-- An inserted row as stored: one value per table column, null for a
column the record does not carry. -/
def rowConform (cols : List String) (r : Row) : Row :=
  cols.map (fun c => (c, (objGet r c).getD .null))

mutual
/-- Structural equality of stored values, used for the sqlite uniqueness
check on the primary-key column. -/
def beqJ : JValue → JValue → Bool
  | .null, .null => true
  | .bool a, .bool b => a == b
  | .num a, .num b => a == b
  | .str a, .str b => a == b
  | .arr a, .arr b => beqArr a b
  | .obj a, .obj b => beqObj a b
  | _, _ => false
/-- Elementwise `beqJ` on lists. -/
def beqArr : List JValue → List JValue → Bool
  | [], [] => true
  | a :: as2, b :: bs2 => beqJ a b && beqArr as2 bs2
  | _, _ => false
/-- Entrywise `beqJ` on dicts. -/
def beqObj : List (String × JValue) → List (String × JValue) → Bool
  | [], [] => true
  | (k1, v1) :: r1, (k2, v2) :: r2 => k1 == k2 && beqJ v1 v2 && beqObj r1 r2
  | _, _ => false
end

/-- Boolean membership via `beqJ`. -/
def memJ (v : JValue) : List JValue → Bool
  | [] => false
  | w :: r => beqJ w v || memJ v r

/-- Sqlite `UNIQUE` violation check for the incoming primary-key values
against the stored ones: a non-null incoming value that repeats a stored
value or an earlier incoming value violates the constraint. Null
primary-key values are admitted (sqlite accepts `NULL` in a non-integer
primary key). -/
def pkClash (oldVals : List JValue) : List JValue → Bool
  | [] => false
  | v :: rest => (!(beqJ v .null) && memJ v oldVals) || pkClash (v :: oldVals) rest

/-- Pandas `df.to_sql(name, conn, if_exists="append", index=False)` into
an existing sqlite table: the generated `INSERT` fails with an
`OperationalError` when the frame has a column the table lacks; a
primary-key duplicate fails with an `IntegrityError` and the transaction
inserts nothing; otherwise all rows are appended, null-filled for table
columns the frame does not carry. -/
def to_sql_append (df : DFrame) (t : Table) : Except PyErr Table :=
  if df.cols.all (fun c => t.cols.contains c) then
    match t.pk with
    | none => .ok ⟨t.cols, none, t.rows ++ df.rows.map (rowConform t.cols)⟩
    | some k =>
      if pkClash (t.rows.map (fun r => (objGet r k).getD .null))
                 ((df.rows.map (rowConform t.cols)).map (fun r => (objGet r k).getD .null))
      then .error .integrityError
      else .ok ⟨t.cols, some k, t.rows ++ df.rows.map (rowConform t.cols)⟩
  else .error .operationalError

/-- The fixed `line_items` column filter of `save_to_db`
(src/main.py line 170). -/
def allowed_cols : List String :=
  ["invoice_number", "description", "quantity", "unit_price", "amount"]

/-- The column surgery on `df_items` in `save_to_db` (src/main.py lines
171-177): drop every column outside `allowed_cols`, add every missing
allowed column as all-`None`, and reorder to `allowed_cols`. -/
def filterItems (df : DFrame) : DFrame :=
  ⟨allowed_cols,
   df.rows.map (fun r =>
     allowed_cols.map (fun c =>
       (c, if df.cols.contains c then (objGet r c).getD .null else .null)))⟩

/-- `save_to_db` (src/main.py lines 167-179): append the header frame to
`invoices`, then the filtered item frame to `line_items`. Each `to_sql`
commits on its own, so a failure in the second append keeps the first
append's rows; the paired error, when present, is the exception the call
raises. -/
def save_to_db (df_inv df_items : DFrame) (db : DB) : DB × Option PyErr :=
  match to_sql_append df_inv db.invoices with
  | .error e => (db, some e)
  | .ok inv =>
    match to_sql_append (filterItems df_items) db.line_items with
    | .error e => ({ db with invoices := inv }, some e)
    | .ok items => (⟨inv, items⟩, none)

/-- Observable driver actions relevant to the claims. -/
inductive Event where
  | llmCall (text : String)
  | dbSave
deriving DecidableEq, Repr

/-- One document of the input collection, with the outcomes of its
external collaborators given as oracles:
  * `download`: `download_file` (raises on a malformed URL or network
    failure);
  * `ocr_primary`: the pdf2image/pytesseract text (the `try` in `run_ocr`
    catches any raise);
  * `ocr_fallback`: the easyocr fragment list used when the primary text
    is short;
  * `attempt1`, `attempt2`: the value of `json.loads(extract_with_gemini(text))`
    for each attempt — `ok` a decoded value, `error` a raise from the
    request or the JSON parse. -/
structure Doc where
  download : Except PyErr Unit
  ocr_primary : Except PyErr String
  ocr_fallback : Except PyErr (List String)
  attempt1 : Except PyErr JValue
  attempt2 : Except PyErr JValue

/-- `run_ocr` (src/main.py lines 47-63): primary engine text; when its
stripped length is under 20, the easyocr fallback output joined with
spaces; any raise inside the `try` yields the empty string. -/
def run_ocr (d : Doc) : String :=
  match d.ocr_primary with
  | .error _ => ""
  | .ok t =>
    if (pyStripStr t).length < 20 then
      match d.ocr_fallback with
      | .ok parts => String.intercalate " " parts
      | .error _ => ""
    else t

/-- `safe_extract_json` (src/main.py lines 85-96): first attempt, one
retry, and `{}` when both attempts raise. -/
def safe_extract_json (a1 a2 : Except PyErr JValue) : JValue :=
  match a1 with
  | .ok j => j
  | .error _ =>
    match a2 with
    | .ok j => j
    | .error _ => .obj []

/-- The language-model calls `safe_extract_json` makes on a document:
always the first attempt, and the retry exactly when the first attempt
raised. -/
def llmEvents (text : String) (a1 : Except PyErr JValue) : List Event :=
  Event.llmCall text ::
    (match a1 with
     | .error _ => [Event.llmCall text]
     | .ok _ => [])

/-- The tail of a loop iteration after `save_to_db`: record the save
event on success, surface the exception on failure. -/
def afterSave (evs : List Event) (res : DB × Option PyErr) :
    List Event × DB × Option PyErr :=
  match res with
  | (db2, some e) => (evs, db2, some e)
  | (db2, none) => (evs ++ [Event.dbSave], db2, none)

/-- One iteration of the `process_folder` loop body (src/main.py lines
204-210): download, OCR, structured extraction, normalize, save — with
no exception handling of its own. The result lists the observable events,
the database state after the iteration, and the uncaught exception when
one is raised. -/
def processDoc (dateParse : JValue → Option String) (d : Doc) (db : DB) :
    List Event × DB × Option PyErr :=
  match d.download with
  | .error e => ([], db, some e)
  | .ok _ =>
    match normalize_df dateParse (safe_extract_json d.attempt1 d.attempt2) with
    | .error e => (llmEvents (run_ocr d) d.attempt1, db, some e)
    | .ok (dfi, dft) =>
      afterSave (llmEvents (run_ocr d) d.attempt1) (save_to_db dfi dft db)

/-- The document loop of `process_folder`: documents in order, stopping
with the first uncaught exception (which aborts the Python `for` loop). -/
def processDocs (dateParse : JValue → Option String) :
    List Doc → DB → DB × Option PyErr
  | [], db => (db, none)
  | d :: rest, db =>
    match processDoc dateParse d db with
    | (_, db2, some e) => (db2, some e)
    | (_, db2, none) => processDocs dateParse rest db2

/-- `process_folder` (src/main.py lines 200-211): `init_db`, then the
document loop. -/
def process_folder (dateParse : JValue → Option String) (docs : List Doc)
    (db : Option DB) : DB × Option PyErr :=
  processDocs dateParse docs (init_db db)

/-- A date-parse oracle under which no date string parses (every
`dateutil.parser.parse` call raises). -/
def dpNone : JValue → Option String := fun _ => none

/-- Header projection of a `normalize` result (empty row on error). -/
def okHdr (r : Except PyErr (Row × List Row)) : Row :=
  match r with
  | .ok p => p.1
  | .error _ => []

/-- Line-item projection of a `normalize` result (no rows on error). -/
def okItems (r : Except PyErr (Row × List Row)) : List Row :=
  match r with
  | .ok p => p.2
  | .error _ => []

/-- The header fields the specification lists for `InvoiceHeader`
(spec.md § 3); the confidence column is not among them. -/
def specHeaderFields : List String :=
  ["invoice_number", "invoice_date", "due_date", "vendor_name",
   "customer_name", "subtotal", "tax", "total", "currency"]

/-- Dict test on a decoded value. -/
def isObjJ : JValue → Bool
  | .obj _ => true
  | _ => false

/-- The `line_items` shapes on which the stamping loop of `normalize`
cannot raise: key absent, a list of dicts, or an empty (falsy) string,
dict or list. -/
def lineItemsSafe (kvs : Row) : Bool :=
  match objGet kvs "line_items" with
  | none => true
  | some (.arr xs) => xs.all isObjJ
  | some (.str s) => s.isEmpty
  | some (.obj k2) => k2.isEmpty
  | some _ => false

/-- A one-column header frame carrying invoice number `"A"`. -/
def dfA : DFrame := ⟨["invoice_number"], [[("invoice_number", .str "A")]]⟩

/-- An empty line-item frame (the shape `normalize` emits when a document
has no line items). -/
def dfE : DFrame := ⟨["invoice_number"], []⟩

/-- A one-column header frame carrying invoice number `"B"`. -/
def dfB : DFrame := ⟨["invoice_number"], [[("invoice_number", .str "B")]]⟩

/-- A line-item frame whose records carry a column (`discount`) that the
`line_items` relation does not have. -/
def dfItemsDiscount : DFrame :=
  ⟨["invoice_number", "discount"],
   [[("invoice_number", .str "B"), ("discount", .num (.fin 5))]]⟩

/-- A store whose `line_items` relation already holds one row (invoice
`"A"`), as left by an earlier batch. -/
def dbWithItemRow : DB :=
  ⟨⟨invoiceCols, some "invoice_number", []⟩,
   ⟨itemCols, none,
    [[("invoice_number", .str "A"), ("description", .null), ("quantity", .null),
      ("unit_price", .null), ("amount", .null)]]⟩⟩

/-- A document whose download raises (`download_file` hits a malformed
URL or network failure). -/
def docDlFail : Doc :=
  ⟨.error .valueError, .ok "", .ok [], .ok (.obj []), .ok (.obj [])⟩

/-- A healthy document yielding invoice number `"X"`. -/
def docX : Doc :=
  ⟨.ok (), .ok "this text is long enough for the primary engine", .ok [],
   .ok (.obj [("invoice_number", .str "X")]),
   .ok (.obj [("invoice_number", .str "X")])⟩

/-- A document whose structured extraction fails to parse on both the
first attempt and the retry. -/
def docLLMFail : Doc :=
  ⟨.ok (), .ok "plenty of optical text from this invoice", .ok [],
   .error .valueError, .error .otherError⟩

/-- A document whose OCR yields the empty string (primary engine empty,
fallback engine finds nothing). -/
def docEmptyText : Doc :=
  ⟨.ok (), .ok "", .ok [], .ok (.obj []), .ok (.obj [])⟩

/-! ### Association-list lemmas -/

theorem objGet_objSet_self (d : Row) (k : String) (v : JValue) :
    objGet (objSet d k v) k = some v := by
  induction d with
  | nil => simp [objSet, objGet]
  | cons p rest ih =>
    obtain ⟨k0, v0⟩ := p
    by_cases h : k0 == k
    · simp [objSet, objGet, h]
    · simp [objSet, objGet, h, ih]

theorem objGet_objSet_other (d : Row) (k1 k2 : String) (v : JValue)
    (h : k1 ≠ k2) : objGet (objSet d k1 v) k2 = objGet d k2 := by
  induction d with
  | nil => simp [objSet, objGet, h]
  | cons p rest ih =>
    obtain ⟨k0, v0⟩ := p
    by_cases h0 : k0 == k1
    · have hk0 : k0 = k1 := by simpa using h0
      subst hk0
      simp [objSet, objGet, h, beq_self_eq_true]
    · simp only [objSet, h0, if_false]
      by_cases h2 : k0 == k2
      · simp [objGet, h2]
      · simp [objGet, h2, ih]

/-- `clean_fields` unfolded to its five sequential writes. -/
theorem clean_fields_eq (dp : JValue → Option String) (d : Row) :
    clean_fields dp d =
      numWrite (numWrite (numWrite
        (dateWrite dp (dateWrite dp d "invoice_date") "due_date")
        "subtotal") "tax") "total" := rfl

theorem objGet_numWrite_self (acc : Row) (k : String) :
    objGet (numWrite acc k) k = some (.num (coerceNum (objGet acc k))) :=
  objGet_objSet_self ..

theorem objGet_numWrite_other (acc : Row) (k1 k2 : String) (h : k1 ≠ k2) :
    objGet (numWrite acc k1) k2 = objGet acc k2 :=
  objGet_objSet_other _ _ _ _ h

theorem objGet_dateWrite_other (dp : JValue → Option String) (acc : Row)
    (k1 k2 : String) (h : k1 ≠ k2) :
    objGet (dateWrite dp acc k1) k2 = objGet acc k2 :=
  objGet_objSet_other _ _ _ _ h

theorem objGet_clean_fields_other (dp : JValue → Option String) (d : Row)
    (k : String) (h1 : k ≠ "invoice_date") (h2 : k ≠ "due_date")
    (h3 : k ≠ "subtotal") (h4 : k ≠ "tax") (h5 : k ≠ "total") :
    objGet (clean_fields dp d) k = objGet d k := by
  rw [clean_fields_eq,
      objGet_numWrite_other _ _ _ (fun hh => h5 hh.symm),
      objGet_numWrite_other _ _ _ (fun hh => h4 hh.symm),
      objGet_numWrite_other _ _ _ (fun hh => h3 hh.symm),
      objGet_dateWrite_other _ _ _ _ (fun hh => h2 hh.symm),
      objGet_dateWrite_other _ _ _ _ (fun hh => h1 hh.symm)]

/-- The three numeric keys of the cleaned dict hold exactly the coercion
of the raw values (reading the raw dict, since the earlier writes of
`clean_fields` touch only other keys). -/
theorem objGet_clean_fields_num (dp : JValue → Option String) (d : Row) :
    objGet (clean_fields dp d) "subtotal" = some (.num (coerceNum (objGet d "subtotal"))) ∧
    objGet (clean_fields dp d) "tax" = some (.num (coerceNum (objGet d "tax"))) ∧
    objGet (clean_fields dp d) "total" = some (.num (coerceNum (objGet d "total"))) := by
  rw [clean_fields_eq]
  refine ⟨?_, ?_, ?_⟩
  · rw [objGet_numWrite_other _ _ _ (by decide),
        objGet_numWrite_other _ _ _ (by decide),
        objGet_numWrite_self,
        objGet_dateWrite_other _ _ _ _ (by decide),
        objGet_dateWrite_other _ _ _ _ (by decide)]
  · rw [objGet_numWrite_other _ _ _ (by decide),
        objGet_numWrite_self,
        objGet_numWrite_other _ _ _ (by decide),
        objGet_dateWrite_other _ _ _ _ (by decide),
        objGet_dateWrite_other _ _ _ _ (by decide)]
  · rw [objGet_numWrite_self,
        objGet_numWrite_other _ _ _ (by decide),
        objGet_numWrite_other _ _ _ (by decide),
        objGet_dateWrite_other _ _ _ _ (by decide),
        objGet_dateWrite_other _ _ _ _ (by decide)]

/-! ### Header and normalize lemmas -/

theorem objGet_mkHeader_invoice_number (d : Row) :
    objGet (mkHeader d) "invoice_number" = some (getD d "invoice_number" (.str "")) := rfl

theorem objGet_mkHeader_currency (d : Row) :
    objGet (mkHeader d) "currency" = some (getD d "currency" (.str "")) := rfl

theorem objGet_mkHeader_confidence (d : Row) :
    objGet (mkHeader d) "confidence" = some (.num (.fin (confidenceOf d))) := rfl

theorem normalizeDict_ok (dp : JValue → Option String) (kvs h : Row)
    (its : List Row) (hok : normalizeDict dp kvs = .ok (h, its)) :
    h = mkHeader (clean_fields dp kvs) ∧
    mkItems (clean_fields dp kvs)
      (getD (clean_fields dp kvs) "invoice_number" (.str "")) = .ok its := by
  unfold normalizeDict at hok
  cases hm : mkItems (clean_fields dp kvs)
      (getD (clean_fields dp kvs) "invoice_number" (.str "")) with
  | ok its2 =>
    rw [hm] at hok
    cases hok
    exact ⟨rfl, rfl⟩
  | error e =>
    rw [hm] at hok
    cases hok

theorem normalize_ok (dp : JValue → Option String) (j : JValue) (h : Row)
    (its : List Row) (hok : normalize dp j = .ok (h, its)) :
    ∃ kvs, unwrapList j = .obj kvs ∧ normalizeDict dp kvs = .ok (h, its) := by
  unfold normalize at hok
  cases hu : unwrapList j with
  | obj kvs => exact ⟨kvs, rfl, by rw [hu] at hok; exact hok⟩
  | null => rw [hu] at hok; cases hok
  | bool b => rw [hu] at hok; cases hok
  | num p => rw [hu] at hok; cases hok
  | str s => rw [hu] at hok; cases hok
  | arr xs => rw [hu] at hok; cases hok

/-! ### Line-item lemmas -/

theorem setItemNums_mem (inum : JValue) (xs : List JValue) (ys : List Row)
    (hok : setItemNums inum xs = .ok ys) :
    ∀ r ∈ ys, objGet r "invoice_number" = some inum := by
  induction xs generalizing ys with
  | nil =>
    cases hok
    intro r hr
    cases hr
  | cons x rest ih =>
    cases x with
    | obj kvs =>
      unfold setItemNums at hok
      cases hrec : setItemNums inum rest with
      | ok ys2 =>
        rw [hrec] at hok
        cases hok
        intro r hr
        rcases List.mem_cons.mp hr with hr1 | hr2
        · rw [hr1]
          exact objGet_objSet_self ..
        · exact ih ys2 hrec r hr2
      | error e => rw [hrec] at hok; cases hok
    | null => cases hok
    | bool b => cases hok
    | num p => cases hok
    | str s => cases hok
    | arr zs => cases hok

theorem mkItems_mem (d : Row) (inum : JValue) (its : List Row)
    (hok : mkItems d inum = .ok its) :
    ∀ r ∈ its, objGet r "invoice_number" = some inum := by
  unfold mkItems at hok
  cases hg : objGet d "line_items" with
  | none =>
    rw [hg] at hok
    cases hok
    intro r hr
    cases hr
  | some v =>
    rw [hg] at hok
    cases v with
    | arr xs => exact setItemNums_mem inum xs its hok
    | str s =>
      by_cases he : s.isEmpty <;> simp [he] at hok
      subst hok
      intro r hr
      cases hr
    | obj kvs =>
      by_cases he : kvs.isEmpty <;> simp [he] at hok
      subst hok
      intro r hr
      cases hr
    | null => cases hok
    | bool b => cases hok
    | num p => cases hok

theorem setItemNums_total (inum : JValue) (xs : List JValue)
    (hobj : ∀ x ∈ xs, ∃ kvs, x = JValue.obj kvs) :
    ∃ ys, setItemNums inum xs = .ok ys := by
  induction xs with
  | nil => exact ⟨[], rfl⟩
  | cons x rest ih =>
    obtain ⟨kvs, hx⟩ := hobj x (List.mem_cons_self ..)
    subst hx
    obtain ⟨ys, hys⟩ := ih (fun z hz => hobj z (List.mem_cons_of_mem _ hz))
    exact ⟨objSet kvs "invoice_number" inum :: ys, by unfold setItemNums; rw [hys]⟩

/-! ### Storage lemmas -/

theorem to_sql_append_ok (df : DFrame) (t t2 : Table)
    (hok : to_sql_append df t = .ok t2) :
    t2.cols = t.cols ∧ t2.pk = t.pk ∧
    t2.rows = t.rows ++ df.rows.map (rowConform t.cols) := by
  obtain ⟨tcols, tpk, trows⟩ := t
  unfold to_sql_append at hok
  by_cases hc : df.cols.all (fun c => tcols.contains c)
  · rw [if_pos hc] at hok
    cases tpk with
    | none =>
      cases hok
      exact ⟨rfl, rfl, rfl⟩
    | some k =>
      have hok2 :
          (if pkClash (trows.map (fun r => (objGet r k).getD .null))
              ((df.rows.map (rowConform tcols)).map (fun r => (objGet r k).getD .null))
           then (Except.error PyErr.integrityError : Except PyErr Table)
           else .ok ⟨tcols, some k, trows ++ df.rows.map (rowConform tcols)⟩) = .ok t2 := hok
      by_cases hcl : pkClash (trows.map (fun r => (objGet r k).getD .null))
          ((df.rows.map (rowConform tcols)).map (fun r => (objGet r k).getD .null))
      · rw [if_pos hcl] at hok2
        cases hok2
      · rw [if_neg hcl] at hok2
        cases hok2
        exact ⟨rfl, rfl, rfl⟩
  · rw [if_neg hc] at hok
    cases hok

theorem memJ_or (v w : JValue) (l : List JValue) :
    memJ v (w :: l) = (beqJ w v || memJ v l) := rfl

/-- Once a value sits in the seen list, pkClash stays true however the
seen list grows along the scan. -/
theorem pkClash_of_memJ (v : JValue) (news : List JValue)
    (hnn : beqJ v .null = false) (pre old : List JValue)
    (hold : memJ v old = true) :
    pkClash old (pre ++ v :: news) = true := by
  induction pre generalizing old with
  | nil =>
    show (!(beqJ v .null) && memJ v old || pkClash (v :: old) news) = true
    rw [hnn, hold]
    simp
  | cons w pre2 ih =>
    have hmem : memJ v (w :: old) = true := by
      rw [memJ_or, hold]
      simp
    show (!(beqJ w .null) && memJ w old || pkClash (w :: old) (pre2 ++ v :: news)) = true
    simp only [Bool.or_eq_true]
    right
    exact ih (w :: old) hmem

theorem objGet_rowConform_mem (cols : List String) (r : Row) (k : String)
    (hk : k ∈ cols) :
    objGet (rowConform cols r) k = some ((objGet r k).getD .null) := by
  induction cols with
  | nil => cases hk
  | cons c rest ih =>
    rcases List.mem_cons.mp hk with h1 | h2
    · subst h1
      simp [rowConform, objGet]
    · by_cases hc : c == k
      · have : c = k := by simpa using hc
        subst this
        simp [rowConform, objGet]
      · simp only [rowConform, List.map_cons, objGet, hc, if_false]
        exact ih h2

theorem normalize_obj (dp : JValue → Option String) (kvs : Row) :
    normalize dp (.obj kvs) = normalizeDict dp kvs := rfl

/-- A successful `save_to_db` appends the conformed rows and changes no
column set: the shared inversion behind the storage claims. -/
theorem save_to_db_ok (dfi dft : DFrame) (db db2 : DB)
    (hok : save_to_db dfi dft db = (db2, none)) :
    db2.invoices.cols = db.invoices.cols ∧
    db2.line_items.cols = db.line_items.cols ∧
    db2.invoices.rows =
      db.invoices.rows ++ dfi.rows.map (rowConform db.invoices.cols) ∧
    db2.line_items.rows =
      db.line_items.rows ++ (filterItems dft).rows.map (rowConform db.line_items.cols) ∧
    (filterItems dft).cols = allowed_cols := by
  unfold save_to_db at hok
  cases h1 : to_sql_append dfi db.invoices with
  | error e =>
    rw [h1] at hok
    cases hok
  | ok inv =>
    rw [h1] at hok
    cases h2 : to_sql_append (filterItems dft) db.line_items with
    | error e =>
      rw [h2] at hok
      cases hok
    | ok items =>
      rw [h2] at hok
      cases hok
      obtain ⟨hic, _, hir⟩ := to_sql_append_ok _ _ _ h1
      obtain ⟨hlc, _, hlr⟩ := to_sql_append_ok _ _ _ h2
      exact ⟨hic, hlc, hir, hlr, rfl⟩

/-- `afterSave` succeeded exactly when the underlying save did. -/
theorem afterSave_ok (evs evs2 : List Event) (res : DB × Option PyErr)
    (db2 : DB) (h : afterSave evs res = (evs2, db2, none)) :
    res = (db2, none) := by
  obtain ⟨db3, oerr⟩ := res
  cases oerr with
  | some e =>
    have h3 : (some e : Option PyErr) = none := congrArg (fun p => p.2.2) h
    cases h3
  | none =>
    have hdb : db3 = db2 := congrArg (fun p => p.2.1) h
    rw [hdb]

/-- `normalize` on the empty extraction `{}` (what `safe_extract_json`
returns after two failures): the fully defaulted header and no items. -/
theorem normalize_df_empty (dp : JValue → Option String) :
    normalize_df dp (.obj []) =
      .ok (dfOfHeader (mkHeader (clean_fields dp [])), dfOfItems []) := rfl

/-! ### Claim C8 -/

/-- C8: for every input to `normalize`, every line-item record it produces
carries an `invoice_number` equal to the header's resolved
`invoice_number` (the stamp is written from the header dict after its
defaulting), including when the header number was itself defaulted to the
empty string because the raw extraction lacked the key. -/
theorem c8_theorem :
    (∀ (dp : JValue → Option String) (j : JValue) (h : Row) (its : List Row),
       normalize dp j = .ok (h, its) →
       ∀ r ∈ its, objGet r "invoice_number" = objGet h "invoice_number") ∧
    (∀ (dp : JValue → Option String) (kvs h : Row) (its : List Row),
       normalize dp (.obj kvs) = .ok (h, its) →
       objGet kvs "invoice_number" = none →
       objGet h "invoice_number" = some (.str "")) := by
  constructor
  · intro dp j h its hok r hr
    obtain ⟨kvs, hu, hnd⟩ := normalize_ok dp j h its hok
    obtain ⟨hh, hi⟩ := normalizeDict_ok dp kvs h its hnd
    subst hh
    rw [objGet_mkHeader_invoice_number]
    exact mkItems_mem _ _ _ hi r hr
  · intro dp kvs h its hok habs
    rw [normalize_obj] at hok
    obtain ⟨hh, _⟩ := normalizeDict_ok dp kvs h its hok
    subst hh
    rw [objGet_mkHeader_invoice_number]
    unfold getD
    rw [objGet_clean_fields_other dp kvs _ (by decide) (by decide) (by decide)
          (by decide) (by decide), habs]
    rfl

/-- C8 witness: a concrete extraction with one line item and no
`invoice_number` key; the produced line item carries the header's
(defaulted, empty-string) invoice number. -/
theorem c8_witness :
    objGet (objSet [] "invoice_number" (getD
        (clean_fields dpNone [("line_items", .arr [.obj []])])
        "invoice_number" (.str "")))
      "invoice_number" =
      objGet (okHdr (normalize dpNone (.obj [("line_items", .arr [.obj []])])))
        "invoice_number" ∧
    objGet (okHdr (normalize dpNone (.obj [("line_items", .arr [.obj []])])))
      "invoice_number" = some (.str "") := by
  constructor
  · exact c8_theorem.1 dpNone (.obj [("line_items", .arr [.obj []])])
      (okHdr (normalize dpNone (.obj [("line_items", .arr [.obj []])])))
      (okItems (normalize dpNone (.obj [("line_items", .arr [.obj []])])))
      rfl _ (by rw [show okItems (normalize dpNone (.obj [("line_items", .arr [.obj []])])) =
        [objSet [] "invoice_number" (getD
          (clean_fields dpNone [("line_items", .arr [.obj []])])
          "invoice_number" (.str ""))] from rfl]; exact List.mem_singleton.mpr rfl)
  · exact c8_theorem.2 dpNone [("line_items", .arr [.obj []])]
      (okHdr (normalize dpNone (.obj [("line_items", .arr [.obj []])])))
      (okItems (normalize dpNone (.obj [("line_items", .arr [.obj []])])))
      rfl rfl

/-! ### Claim C9 -/

/-- C9 counterexample: the raw extraction `{}` has no `currency` key, yet
the header `normalize` produces carries `currency = ""`, not `"USD"` —
the `.get` default on line 126 of src/main.py is the empty string. -/
theorem c9_counterexample :
    objGet (okHdr (normalize dpNone (.obj []))) "currency" = some (.str "") ∧
    JValue.str "" ≠ JValue.str "USD" :=
  ⟨rfl, fun h => absurd (JValue.str.inj h) (by decide)⟩

/-- C9 amended: for every raw extraction in which the `currency` key is
absent, the header record produced by `normalize` has `currency` equal to
the empty string `""` (the code's default), not `"USD"`. -/
theorem c9_theorem (dp : JValue → Option String) (kvs h : Row)
    (its : List Row) (hok : normalize dp (.obj kvs) = .ok (h, its))
    (habs : objGet kvs "currency" = none) :
    objGet h "currency" = some (.str "") := by
  rw [normalize_obj] at hok
  obtain ⟨hh, _⟩ := normalizeDict_ok dp kvs h its hok
  subst hh
  rw [objGet_mkHeader_currency]
  unfold getD
  rw [objGet_clean_fields_other dp kvs _ (by decide) (by decide) (by decide)
        (by decide) (by decide), habs]
  rfl

/-- C9 witness: the amended claim instantiated at the empty extraction. -/
theorem c9_witness :
    objGet (okHdr (normalize dpNone (.obj []))) "currency" = some (.str "") :=
  c9_theorem dpNone [] (okHdr (normalize dpNone (.obj [])))
    (okItems (normalize dpNone (.obj []))) rfl rfl

/-! ### Claim C10 -/

/-- C10: for every input to `normalize` (given as the post-unwrap dict),
the header carries a `confidence` field equal to
`min(0.99, len(str(cleaned_dict)) / 5000)`, a value always within
`[0, 0.99]`; the field is a column of the stored `invoices` schema beyond
those the specification lists, and survives row conformance to that
schema. -/
theorem c10_theorem (dp : JValue → Option String) (kvs h : Row)
    (its : List Row) (hok : normalize dp (.obj kvs) = .ok (h, its)) :
    objGet h "confidence" =
      some (.num (.fin (confidenceOf (clean_fields dp kvs)))) ∧
    confidenceOf (clean_fields dp kvs) =
      pyMin (99 / 100) (((pyRepr (.obj (clean_fields dp kvs))).length : Rat) / 5000) ∧
    0 ≤ confidenceOf (clean_fields dp kvs) ∧
    confidenceOf (clean_fields dp kvs) ≤ 99 / 100 ∧
    "confidence" ∈ (mkHeader (clean_fields dp kvs)).map Prod.fst ∧
    "confidence" ∉ specHeaderFields ∧
    "confidence" ∈ invoiceCols ∧
    objGet (rowConform invoiceCols h) "confidence" =
      some (.num (.fin (confidenceOf (clean_fields dp kvs)))) := by
  rw [normalize_obj] at hok
  obtain ⟨hh, _⟩ := normalizeDict_ok dp kvs h its hok
  subst hh
  have hbound1 : 0 ≤ confidenceOf (clean_fields dp kvs) := by
    unfold confidenceOf pyMin
    split
    · positivity
    · norm_num
  have hbound2 : confidenceOf (clean_fields dp kvs) ≤ 99 / 100 := by
    unfold confidenceOf pyMin
    split
    · next hlt => exact le_of_lt hlt
    · exact le_refl _
  refine ⟨objGet_mkHeader_confidence _, rfl, hbound1, hbound2, ?_, by decide, by decide, ?_⟩
  · rw [show (mkHeader (clean_fields dp kvs)).map Prod.fst =
      ["invoice_number", "invoice_date", "due_date", "vendor_name",
       "vendor_address", "customer_name", "customer_address",
       "subtotal", "tax", "total", "currency", "confidence"] from rfl]
    decide
  · rw [objGet_rowConform_mem invoiceCols _ "confidence" (by decide),
        objGet_mkHeader_confidence]
    rfl

/-- C10 witness: the theorem instantiated at the empty extraction. -/
theorem c10_witness :
    objGet (okHdr (normalize dpNone (.obj []))) "confidence" =
      some (.num (.fin (confidenceOf (clean_fields dpNone [])))) ∧
    0 ≤ confidenceOf (clean_fields dpNone []) ∧
    confidenceOf (clean_fields dpNone []) ≤ 99 / 100 ∧
    "confidence" ∉ specHeaderFields := by
  obtain ⟨h1, _, h3, h4, _, h6, _, _⟩ :=
    c10_theorem dpNone [] (okHdr (normalize dpNone (.obj [])))
      (okItems (normalize dpNone (.obj []))) rfl
  exact ⟨h1, h3, h4, h6⟩

/-! ### Claim C4 -/

/-- C4 counterexample: the numeric coercion does not remove `$`. On the
currency-formatted string `"$1,200.50"` only the comma is removed,
`float("$1200.50")` raises, and the swallowed exception yields `0.0` —
not the numeric value `1200.50` the claim asserts. -/
theorem c4_counterexample :
    objGet (clean_fields dpNone [("subtotal", .str "$1,200.50")]) "subtotal" =
      some (.num (.fin 0)) ∧
    (0 : Rat) ≠ 2401 / 2 :=
  ⟨rfl, by norm_num⟩

/-- C4 amended: the coercion applied to `subtotal`, `tax` and `total`
always yields a float and never raises: an absent key or `None` yields
`0.0`; a numeric value passes through; a string has its `,` characters
(but not `$`) removed and is parsed by `float()`, any failure — including
the empty string, `"none"`, `"null"`, `"abc"`, and any `$`-containing
string such as `"$1,200.50"` — yielding `0.0`; `"1,200.50"` and
`"1200.50"` both parse to `1200.50`. -/
theorem c4_theorem :
    (∀ (dp : JValue → Option String) (d : Row) (k : String), k ∈ numKeys →
       objGet (clean_fields dp d) k = some (.num (coerceNum (objGet d k)))) ∧
    coerceNum none = .fin 0 ∧
    coerceNum (some .null) = .fin 0 ∧
    (∀ p, coerceNum (some (.num p)) = p) ∧
    coerceNum (some (.str "")) = .fin 0 ∧
    coerceNum (some (.str "none")) = .fin 0 ∧
    coerceNum (some (.str "null")) = .fin 0 ∧
    coerceNum (some (.str "abc")) = .fin 0 ∧
    coerceNum (some (.str "$1,200.50")) = .fin 0 ∧
    coerceNum (some (.str "1,200.50")) = .fin (2401 / 2) ∧
    coerceNum (some (.str "1200.50")) = .fin (2401 / 2) := by
  refine ⟨?_, rfl, rfl, fun p => rfl, rfl, rfl, rfl, rfl, rfl, ?_, ?_⟩
  · intro dp d k hk
    have h3 := objGet_clean_fields_num dp d
    have hk2 : k = "subtotal" ∨ k = "tax" ∨ k = "total" := by
      simpa [numKeys] using hk
    rcases hk2 with h | h | h <;> subst h
    · exact h3.1
    · exact h3.2.1
    · exact h3.2.2
  · rw [show coerceNum (some (.str "1,200.50")) =
        .fin ((((1200 : Nat) : Rat) + ((50 : Nat) : Rat) / (10 : Rat) ^ (2 : Nat)) *
          (10 : Rat) ^ (0 : Nat)) from rfl]
    exact congrArg PFloat.fin (by norm_num)
  · rw [show coerceNum (some (.str "1200.50")) =
        .fin ((((1200 : Nat) : Rat) + ((50 : Nat) : Rat) / (10 : Rat) ^ (2 : Nat)) *
          (10 : Rat) ^ (0 : Nat)) from rfl]
    exact congrArg PFloat.fin (by norm_num)

/-- C4 witness: the coercion equation of the amended claim instantiated
at a concrete dict. -/
theorem c4_witness :
    "subtotal" ∈ numKeys ∧
    objGet (clean_fields dpNone [("subtotal", .str "45")]) "subtotal" =
      some (.num (coerceNum (objGet [("subtotal", .str "45")] "subtotal"))) :=
  ⟨by decide, c4_theorem.1 dpNone [("subtotal", .str "45")] "subtotal" (by decide)⟩

/-! ### Claim C5 -/

/-- C5 counterexample: `normalize` is not total on JSON-decodable inputs.
A wrongly-typed `line_items` (here the number `5`) raises `TypeError`
(`for item in 5` is not iterable), and a bare scalar input raises
`TypeError` inside `clean_fields`. -/
theorem c5_counterexample :
    normalize dpNone (.obj [("line_items", .num (.fin 5))]) = .error .typeError ∧
    normalize dpNone (.num (.fin 5)) = .error .typeError :=
  ⟨rfl, rfl⟩

/-- C5 amended: `normalize` returns exactly one header record and zero or
more line-item records without raising for any dict input whose
`line_items` value, when present, is a list of objects or an empty
(falsy) string/dict/list; when the input is a list only its first element
is used, and an empty list is treated as an empty object. (Other
`line_items` shapes raise `TypeError`, as the counterexample shows.) -/
theorem c5_theorem :
    (∀ (dp : JValue → Option String) (kvs : Row), lineItemsSafe kvs = true →
       ∃ h its, normalize dp (.obj kvs) = .ok (h, its)) ∧
    (∀ dp : JValue → Option String,
       normalize dp (.arr []) = normalize dp (.obj [])) ∧
    (∀ (dp : JValue → Option String) (kvs : Row) (rest : List JValue),
       normalize dp (.arr (.obj kvs :: rest)) = normalize dp (.obj kvs)) := by
  refine ⟨?_, fun dp => rfl, fun dp kvs rest => rfl⟩
  intro dp kvs hsafe
  have hli : objGet (clean_fields dp kvs) "line_items" = objGet kvs "line_items" :=
    objGet_clean_fields_other dp kvs _ (by decide) (by decide) (by decide)
      (by decide) (by decide)
  unfold lineItemsSafe at hsafe
  have hex : ∃ its, mkItems (clean_fields dp kvs)
      (getD (clean_fields dp kvs) "invoice_number" (.str "")) = .ok its := by
    unfold mkItems
    rw [hli]
    cases hg : objGet kvs "line_items" with
    | none => exact ⟨[], rfl⟩
    | some v =>
      rw [hg] at hsafe
      cases v with
      | arr xs =>
        refine setItemNums_total _ xs ?_
        intro x hx
        have hb : isObjJ x = true := List.all_eq_true.mp hsafe x hx
        cases x with
        | obj kv => exact ⟨kv, rfl⟩
        | null => cases hb
        | bool b => cases hb
        | num p => cases hb
        | str s => cases hb
        | arr zs => cases hb
      | str s =>
        have hs : s.isEmpty = true := hsafe
        exact ⟨[], show (if s.isEmpty = true then (Except.ok [] : Except PyErr (List Row))
          else .error .typeError) = .ok [] from by rw [if_pos hs]⟩
      | obj k2 =>
        have hs : k2.isEmpty = true := hsafe
        exact ⟨[], show (if k2.isEmpty = true then (Except.ok [] : Except PyErr (List Row))
          else .error .typeError) = .ok [] from by rw [if_pos hs]⟩
      | null => cases hsafe
      | bool b => cases hsafe
      | num p => cases hsafe
  obtain ⟨its, hits⟩ := hex
  refine ⟨mkHeader (clean_fields dp kvs), its, ?_⟩
  rw [normalize_obj]
  unfold normalizeDict
  rw [hits]

/-- C5 witness: the amended totality applied to a concrete extraction
with one well-typed line item. -/
theorem c5_witness :
    lineItemsSafe [("line_items", .arr [.obj []])] = true ∧
    normalize dpNone (.obj [("line_items", .arr [.obj []])]) =
      .ok (okHdr (normalize dpNone (.obj [("line_items", .arr [.obj []])])),
           okItems (normalize dpNone (.obj [("line_items", .arr [.obj []])]))) := by
  refine ⟨rfl, ?_⟩
  obtain ⟨h, its, heq⟩ := c5_theorem.1 dpNone [("line_items", .arr [.obj []])] rfl
  exact rfl

/-! ### Claim C2 -/

/-- C2 counterexample: saving line-item records that carry a new column
(`discount`) into the existing `line_items` relation succeeds but does
NOT add the column to the relation — `save_to_db` drops it (src/main.py
lines 171-173) and the stored row has no `discount` value. No
`ALTER TABLE` exists anywhere in the storage layer. -/
theorem c2_counterexample :
    (save_to_db dfB dfItemsDiscount dbWithItemRow).2 = none ∧
    "discount" ∈ dfItemsDiscount.cols ∧
    (save_to_db dfB dfItemsDiscount dbWithItemRow).1.line_items.cols = itemCols ∧
    "discount" ∉ itemCols ∧
    objGet ((save_to_db dfB dfItemsDiscount dbWithItemRow).1.line_items.rows.getLastD [])
      "discount" = none := by
  refine ⟨rfl, by decide, rfl, by decide, rfl⟩

/-- C2 amended: `save_to_db` never widens a relation's schema. On a
successful save the column sets of both relations are unchanged; the
item records are first projected onto the fixed allowed column set
(columns outside it dropped, missing ones null-filled); all rows are
appended with null for relation columns absent from a record; and no
previously stored column or row is lost. (A header record column absent
from the `invoices` relation makes the save raise instead of migrating.) -/
theorem c2_theorem (dfi dft : DFrame) (db db2 : DB)
    (hok : save_to_db dfi dft db = (db2, none)) :
    db2.invoices.cols = db.invoices.cols ∧
    db2.line_items.cols = db.line_items.cols ∧
    db2.invoices.rows =
      db.invoices.rows ++ dfi.rows.map (rowConform db.invoices.cols) ∧
    db2.line_items.rows =
      db.line_items.rows ++ (filterItems dft).rows.map (rowConform db.line_items.cols) ∧
    (filterItems dft).cols = allowed_cols :=
  save_to_db_ok dfi dft db db2 hok

/-- C2 witness: a plain save of one header and no items into a fresh
store, with the amended description instantiated there. -/
theorem c2_witness :
    save_to_db dfA dfE (init_db none) =
      ((save_to_db dfA dfE (init_db none)).1, none) ∧
    (save_to_db dfA dfE (init_db none)).1.invoices.cols =
      (init_db none).invoices.cols ∧
    (save_to_db dfA dfE (init_db none)).1.invoices.rows =
      (init_db none).invoices.rows ++
        dfA.rows.map (rowConform (init_db none).invoices.cols) := by
  obtain ⟨hic, _, hir, _, _⟩ :=
    c2_theorem dfA dfE (init_db none) (save_to_db dfA dfE (init_db none)).1 rfl
  exact ⟨rfl, hic, hir⟩

/-! ### Claim C3 -/

/-- C3 counterexample: saving two header records with the same
`invoice_number` does not tolerate the duplicate. `init_db` declares
`invoice_number TEXT PRIMARY KEY`, so the second save raises an
integrity error and appends no row — the relation still holds one row. -/
theorem c3_counterexample :
    (save_to_db dfA dfE (init_db none)).2 = none ∧
    (save_to_db dfA dfE (save_to_db dfA dfE (init_db none)).1).2 =
      some .integrityError ∧
    (save_to_db dfA dfE (save_to_db dfA dfE (init_db none)).1).1.invoices.rows.length = 1 ∧
    (init_db none).invoices.pk = some "invoice_number" :=
  ⟨rfl, rfl, rfl, rfl⟩

/-- C3 amended: the storage layer DOES enforce uniqueness of
`invoice_number` on `invoices` (primary key from `init_db`): saving a
header batch containing a non-null invoice number already stored in the
relation raises (integrity error, or an operational error if the frame
has a foreign column) and leaves the store unchanged — no duplicate
header row is appended. -/
theorem c3_theorem (dfi dft : DFrame) (icols : List String)
    (irows : List Row) (lit : Table) (r : Row) (v : JValue)
    (pre post : List Row)
    (hrows : dfi.rows = pre ++ r :: post)
    (hcol : "invoice_number" ∈ icols)
    (hrv : objGet r "invoice_number" = some v)
    (hnn : beqJ v .null = false)
    (hmem : memJ v (irows.map (fun rr => (objGet rr "invoice_number").getD .null)) = true) :
    (save_to_db dfi dft ⟨⟨icols, some "invoice_number", irows⟩, lit⟩).2 ≠ none ∧
    (save_to_db dfi dft ⟨⟨icols, some "invoice_number", irows⟩, lit⟩).1 =
      ⟨⟨icols, some "invoice_number", irows⟩, lit⟩ := by
  have hmid : ((objGet (rowConform icols r) "invoice_number").getD .null) = v := by
    rw [objGet_rowConform_mem _ _ _ hcol, hrv]
    rfl
  have hmap : ((dfi.rows.map (rowConform icols)).map
        (fun rr => (objGet rr "invoice_number").getD JValue.null))
      = ((pre.map (rowConform icols)).map
          (fun rr => (objGet rr "invoice_number").getD JValue.null))
        ++ v :: ((post.map (rowConform icols)).map
          (fun rr => (objGet rr "invoice_number").getD JValue.null)) := by
    rw [hrows, List.map_append, List.map_append, List.map_cons, List.map_cons, hmid]
  by_cases hc : dfi.cols.all (fun c => icols.contains c)
  · have hclash : pkClash (irows.map (fun rr => (objGet rr "invoice_number").getD .null))
        ((dfi.rows.map (rowConform icols)).map
          (fun rr => (objGet rr "invoice_number").getD JValue.null)) = true := by
      rw [hmap]
      exact pkClash_of_memJ v _ hnn _ _ hmem
    have herr : to_sql_append dfi ⟨icols, some "invoice_number", irows⟩ =
        .error .integrityError := by
      unfold to_sql_append
      rw [if_pos hc]
      show (if pkClash (irows.map (fun rr => (objGet rr "invoice_number").getD .null))
            ((dfi.rows.map (rowConform icols)).map
              (fun rr => (objGet rr "invoice_number").getD JValue.null))
          then (Except.error PyErr.integrityError : Except PyErr Table)
          else .ok ⟨icols, some "invoice_number",
            irows ++ dfi.rows.map (rowConform icols)⟩) = .error .integrityError
      rw [if_pos hclash]
    constructor
    · show (match to_sql_append dfi ⟨icols, some "invoice_number", irows⟩ with
        | .error e => (DB.mk ⟨icols, some "invoice_number", irows⟩ lit, some e)
        | .ok inv =>
          match to_sql_append (filterItems dft) lit with
          | .error e => ({ DB.mk ⟨icols, some "invoice_number", irows⟩ lit with invoices := inv }, some e)
          | .ok items => (⟨inv, items⟩, none)).2 ≠ none
      rw [herr]
      exact fun hcon => Option.noConfusion hcon
    · show (match to_sql_append dfi ⟨icols, some "invoice_number", irows⟩ with
        | .error e => (DB.mk ⟨icols, some "invoice_number", irows⟩ lit, some e)
        | .ok inv =>
          match to_sql_append (filterItems dft) lit with
          | .error e => ({ DB.mk ⟨icols, some "invoice_number", irows⟩ lit with invoices := inv }, some e)
          | .ok items => (⟨inv, items⟩, none)).1 =
        DB.mk ⟨icols, some "invoice_number", irows⟩ lit
      rw [herr]
  · have herr : to_sql_append dfi ⟨icols, some "invoice_number", irows⟩ =
        .error .operationalError := by
      unfold to_sql_append
      rw [if_neg hc]
    constructor
    · show (match to_sql_append dfi ⟨icols, some "invoice_number", irows⟩ with
        | .error e => (DB.mk ⟨icols, some "invoice_number", irows⟩ lit, some e)
        | .ok inv =>
          match to_sql_append (filterItems dft) lit with
          | .error e => ({ DB.mk ⟨icols, some "invoice_number", irows⟩ lit with invoices := inv }, some e)
          | .ok items => (⟨inv, items⟩, none)).2 ≠ none
      rw [herr]
      exact fun hcon => Option.noConfusion hcon
    · show (match to_sql_append dfi ⟨icols, some "invoice_number", irows⟩ with
        | .error e => (DB.mk ⟨icols, some "invoice_number", irows⟩ lit, some e)
        | .ok inv =>
          match to_sql_append (filterItems dft) lit with
          | .error e => ({ DB.mk ⟨icols, some "invoice_number", irows⟩ lit with invoices := inv }, some e)
          | .ok items => (⟨inv, items⟩, none)).1 =
        DB.mk ⟨icols, some "invoice_number", irows⟩ lit
      rw [herr]

/-- C3 witness: the amended claim instantiated at the store left by one
successful save of invoice `"A"`, re-saving the same invoice number. -/
theorem c3_witness :
    (save_to_db dfA dfE
      ⟨⟨invoiceCols, some "invoice_number",
        (save_to_db dfA dfE (init_db none)).1.invoices.rows⟩,
       (save_to_db dfA dfE (init_db none)).1.line_items⟩).2 ≠ none ∧
    (save_to_db dfA dfE
      ⟨⟨invoiceCols, some "invoice_number",
        (save_to_db dfA dfE (init_db none)).1.invoices.rows⟩,
       (save_to_db dfA dfE (init_db none)).1.line_items⟩).1 =
      ⟨⟨invoiceCols, some "invoice_number",
        (save_to_db dfA dfE (init_db none)).1.invoices.rows⟩,
       (save_to_db dfA dfE (init_db none)).1.line_items⟩ :=
  c3_theorem dfA dfE invoiceCols
    (save_to_db dfA dfE (init_db none)).1.invoices.rows
    (save_to_db dfA dfE (init_db none)).1.line_items
    [("invoice_number", .str "A")] (.str "A") [] []
    rfl (by decide) rfl rfl rfl

/-! ### Claim C1 -/

/-- C1 counterexample: the driver loop has no per-document exception
handling. With a first document whose download raises and a second,
healthy document, `process_folder` stops at the first document: the
exception escapes (second component `some valueError`), the store is
left untouched, and the second document — which on its own would have
inserted a header row — is never attempted. -/
theorem c1_counterexample :
    process_folder dpNone [docDlFail, docX] none =
      (init_db none, some .valueError) ∧
    (process_folder dpNone [docDlFail, docX] none).1.invoices.rows = [] ∧
    (process_folder dpNone [docX] none).1.invoices.rows.length = 1 :=
  ⟨rfl, rfl, rfl⟩

/-- C1 amended: no exception raised during download, structured
extraction transport, normalization, or saving is caught at the document
boundary. The loop stops at the first document whose iteration raises,
returning that exception with the store as of that moment and leaving
the remaining documents unattempted; only when an iteration raises
nothing does processing continue with the next document. -/
theorem c1_theorem :
    (∀ (dp : JValue → Option String) (d : Doc) (rest : List Doc)
       (db db2 : DB) (evs : List Event) (e : PyErr),
       processDoc dp d db = (evs, db2, some e) →
       processDocs dp (d :: rest) db = (db2, some e)) ∧
    (∀ (dp : JValue → Option String) (d : Doc) (rest : List Doc)
       (db db2 : DB) (evs : List Event),
       processDoc dp d db = (evs, db2, none) →
       processDocs dp (d :: rest) db = processDocs dp rest db2) := by
  constructor
  · intro dp d rest db db2 evs e h
    unfold processDocs
    rw [h]
  · intro dp d rest db db2 evs h
    rw [show processDocs dp (d :: rest) db =
        (match processDoc dp d db with
         | (_, db3, some e2) => (db3, some e2)
         | (_, db3, none) => processDocs dp rest db3) from rfl, h]

/-- C1 witness: the abort equation instantiated at the failing-download
document followed by a healthy one. -/
theorem c1_witness :
    processDocs dpNone [docDlFail, docX] (init_db none) =
      (init_db none, some .valueError) :=
  c1_theorem.1 dpNone docDlFail [docX] (init_db none) (init_db none) []
    .valueError rfl

/-! ### Claim C6 -/

/-- C6 counterexample: a document whose structured extraction fails to
parse on both attempts is NOT skipped. `safe_extract_json` returns `{}`,
`normalize` builds a fully defaulted header, and the driver inserts it:
the `invoices` relation gains one row with `invoice_number = ""` (and no
line-item rows), the batch continuing without error. -/
theorem c6_counterexample :
    (process_folder dpNone [docLLMFail] none).2 = none ∧
    (process_folder dpNone [docLLMFail] none).1.invoices.rows.length = 1 ∧
    objGet ((process_folder dpNone [docLLMFail] none).1.invoices.rows.headD [])
      "invoice_number" = some (.str "") ∧
    (process_folder dpNone [docLLMFail] none).1.line_items.rows = [] :=
  ⟨rfl, rfl, rfl, rfl⟩

/-- C6 amended: for every document whose two extraction attempts both
fail, `safe_extract_json` degrades to the empty object and the document
is still saved: whenever the iteration completes without an exception,
the `invoices` relation gains exactly the conformed fully-defaulted
header row (invoice number `""`) and the `line_items` relation gains
nothing; the driver continues with the next document. -/
theorem c6_theorem (dp : JValue → Option String) (d : Doc) (db : DB)
    (evs : List Event) (db2 : DB) (e1 e2 : PyErr)
    (h1 : d.attempt1 = .error e1) (h2 : d.attempt2 = .error e2)
    (hdl : d.download = .ok ())
    (hok : processDoc dp d db = (evs, db2, none)) :
    db2.invoices.rows = db.invoices.rows ++
      [rowConform db.invoices.cols (mkHeader (clean_fields dp []))] ∧
    db2.line_items.rows = db.line_items.rows := by
  obtain ⟨ddl, dpri, dfb, da1, da2⟩ := d
  simp only at h1 h2 hdl
  subst h1
  subst h2
  subst hdl
  have hok2 : afterSave
      (llmEvents (run_ocr ⟨.ok (), dpri, dfb, .error e1, .error e2⟩) (.error e1))
      (save_to_db (dfOfHeader (mkHeader (clean_fields dp []))) (dfOfItems []) db)
      = (evs, db2, none) := hok
  have hsave := afterSave_ok _ _ _ _ hok2
  obtain ⟨_, _, hir, hlr, _⟩ := save_to_db_ok _ _ _ _ hsave
  constructor
  · rw [hir]
    rfl
  · rw [hlr, show (filterItems (dfOfItems [])).rows.map
        (rowConform db.line_items.cols) = [] from rfl]
    exact List.append_nil _

/-- C6 witness: the amended claim instantiated at the concrete
doubly-failing document over a fresh store. -/
theorem c6_witness :
    (processDoc dpNone docLLMFail (init_db none)).2.1.invoices.rows =
      (init_db none).invoices.rows ++
        [rowConform (init_db none).invoices.cols
          (mkHeader (clean_fields dpNone []))] ∧
    (processDoc dpNone docLLMFail (init_db none)).2.1.line_items.rows =
      (init_db none).line_items.rows :=
  c6_theorem dpNone docLLMFail (init_db none)
    (processDoc dpNone docLLMFail (init_db none)).1
    (processDoc dpNone docLLMFail (init_db none)).2.1
    .valueError .otherError rfl rfl rfl rfl

/-! ### Claim C7 -/

/-- C7 counterexample: a document whose OCR text is empty is not
abandoned and no minimum-length check precedes the language-model call:
the driver's loop body calls the model with the empty string (the first
recorded event) and processes the document to completion, inserting a
header row. -/
theorem c7_counterexample :
    run_ocr docEmptyText = "" ∧
    (processDoc dpNone docEmptyText (init_db none)).1.head? =
      some (Event.llmCall "") ∧
    (processDoc dpNone docEmptyText (init_db none)).2.2 = none ∧
    (processDoc dpNone docEmptyText (init_db none)).2.1.invoices.rows.length = 1 :=
  ⟨rfl, rfl, rfl, rfl⟩

/-- C7 amended: the batch driver performs the language-model extraction
call for every downloaded document regardless of the extracted text's
length — even when it is empty. The only minimum-length behavior in the
pipeline is inside `run_ocr`: when the primary engine's stripped text is
shorter than 20 characters the easyocr fallback's space-joined output is
used instead, and otherwise the primary text is returned as-is. -/
theorem c7_theorem :
    (∀ (dp : JValue → Option String) (d : Doc) (db : DB) (u : Unit),
       d.download = .ok u →
       Event.llmCall (run_ocr d) ∈ (processDoc dp d db).1) ∧
    (∀ (d : Doc) (t : String) (parts : List String),
       d.ocr_primary = .ok t → (pyStripStr t).length < 20 →
       d.ocr_fallback = .ok parts →
       run_ocr d = String.intercalate " " parts) ∧
    (∀ (d : Doc) (t : String),
       d.ocr_primary = .ok t → ¬ (pyStripStr t).length < 20 →
       run_ocr d = t) := by
  refine ⟨?_, ?_, ?_⟩
  · intro dp d db u hdl
    obtain ⟨ddl, dpri, dfb, da1, da2⟩ := d
    cases u
    simp only at hdl
    subst hdl
    have hp : processDoc dp ⟨.ok (), dpri, dfb, da1, da2⟩ db =
        (match normalize_df dp (safe_extract_json da1 da2) with
         | .error e =>
           (llmEvents (run_ocr ⟨.ok (), dpri, dfb, da1, da2⟩) da1, db, some e)
         | .ok (dfi, dft) =>
           afterSave (llmEvents (run_ocr ⟨.ok (), dpri, dfb, da1, da2⟩) da1)
             (save_to_db dfi dft db)) := rfl
    rw [hp]
    cases hn : normalize_df dp (safe_extract_json da1 da2) with
    | error e => exact List.mem_cons_self _ _
    | ok pair =>
      obtain ⟨dfi, dft⟩ := pair
      show Event.llmCall (run_ocr ⟨.ok (), dpri, dfb, da1, da2⟩) ∈
        (afterSave (llmEvents (run_ocr ⟨.ok (), dpri, dfb, da1, da2⟩) da1)
          (save_to_db dfi dft db)).1
      cases hs2 : save_to_db dfi dft db with
      | mk db3 oerr =>
        cases oerr with
        | some e => exact List.mem_cons_self _ _
        | none =>
          exact List.mem_append_left _ (List.mem_cons_self _ _)
  · intro d t parts hpri hlt hfb
    obtain ⟨ddl, dpri, dfb, da1, da2⟩ := d
    simp only at hpri hfb
    subst hpri
    subst hfb
    have hr : run_ocr ⟨ddl, .ok t, .ok parts, da1, da2⟩ =
        if (pyStripStr t).length < 20 then String.intercalate " " parts else t := rfl
    rw [hr, if_pos hlt]
  · intro d t hpri hge
    obtain ⟨ddl, dpri, dfb, da1, da2⟩ := d
    simp only at hpri
    subst hpri
    have hr : run_ocr ⟨ddl, .ok t, dfb, da1, da2⟩ =
        if (pyStripStr t).length < 20 then
          (match dfb with
           | .ok parts => String.intercalate " " parts
           | .error _ => "") else t := rfl
    rw [hr, if_neg hge]

/-- C7 witness: the language-model call happens on the empty-text
document, and the short-text fallback equation holds there. -/
theorem c7_witness :
    Event.llmCall (run_ocr docEmptyText) ∈
      (processDoc dpNone docEmptyText (init_db none)).1 ∧
    run_ocr docEmptyText = String.intercalate " " ([] : List String) :=
  ⟨c7_theorem.1 dpNone docEmptyText (init_db none) () rfl,
   c7_theorem.2.1 docEmptyText "" [] rfl (by decide) rfl⟩

end InvoicePipe
